import Mathlib

/-!
Verification development for the SlideSmith deck-generation pipeline.

The definitions below are a shallow embedding of the TypeScript sources:
  * `src/lib/deck-generator.ts` (outline generation, slide generation,
    JSON response cleaning, Unsplash URL synthesis, document parsing stub),
  * `src/app/api/generate-deck/route.ts` (request validation and the
    POST handler pipeline),
  * the LLM support module (rate limiting).

LLM network responses are modelled as explicit parameters: `none` stands for
any failure (network error, timeout, unparsable JSON) and `some v` for a
successfully parsed response value.  JavaScript strings are modelled as
`String` where they are opaque payloads and as `List Char` where the code
inspects them character by character (`cleanJSONResponse`).
-/

namespace SlideSmith

/-! ## Outline data model (deck-generator.ts / route.ts) -/

/-- One slide slot of an outline section:
`{title, layout, section}` in the TypeScript sources. -/
structure SlideSlot where
  title : String
  layout : String
  sectionName : String
deriving Repr, DecidableEq

/-- One outline section: `{name, slides}`. -/
structure DeckSection where
  name : String
  slides : List SlideSlot
deriving Repr, DecidableEq

/-- An outline: `{title, sections}`. -/
structure Outline where
  title : String
  sections : List DeckSection
deriving Repr, DecidableEq

/-- `sections.reduce((sum, s) => sum + s.slides.length, 0)`. -/
def totalSlides (sections : List DeckSection) : Nat :=
  (sections.map fun s => s.slides.length).sum

/-- JavaScript `l.slice(0, e)`: a negative end counts from the end of the
array and is clamped at 0; a positive end is clamped at the length. -/
def jsSliceTo {α : Type} (l : List α) (e : Int) : List α :=
  let len : Int := l.length
  let stop : Int := if e < 0 then max (len + e) 0 else min e len
  l.take stop.toNat

/-- The filler slides pushed onto the last section when the outline is short:
`{title: Additional Key Point i+1, layout: title_bullets, section: name}`. -/
def padSlides (name : String) (needed : Nat) : List SlideSlot :=
  (List.range needed).map fun i =>
    { title := "Additional Key Point " ++ toString (i + 1)
      layout := "title_bullets"
      sectionName := name }

/-- The slide-count reconciliation block that appears both in
`generateOutline` (deck-generator.ts lines 156-177) and in the POST route
handler (route.ts lines 148-169).  When the total differs from the target it
pushes filler slides onto, or slices, the *last* section.  Accessing the last
section of an empty `sections` array throws in JavaScript; that is modelled
by returning `none`. -/
def adjustSections (target : Nat) (sections : List DeckSection) :
    Option (List DeckSection) :=
  let total := totalSlides sections
  if total = target then some sections
  else
    match sections.getLast? with
    | none => none
    | some last =>
      if total < target then
        some (sections.dropLast ++
          [{ last with slides := last.slides ++ padSlides last.name (target - total) }])
      else
        let newSlides :=
          jsSliceTo last.slides
            ((last.slides.length : Int) - ((total : Int) - (target : Int)))
        some (sections.dropLast ++ [{ last with slides := newSlides }])

/-- The catch-branch fallback outline of `generateOutline`
(deck-generator.ts lines 188-235): an Opening section of `min 2 slideCount`
slides, an Analysis section of `max 1 (remaining - 2)` slides, and a
Conclusion section holding whatever remains, when anything remains. -/
def fallbackOutline (topic : String) (slideCount : Nat) : Outline :=
  let openingSlides := min 2 slideCount
  let remaining1 := slideCount - openingSlides
  let analysisSlides := max 1 (remaining1 - 2)
  let remaining2 := remaining1 - analysisSlides
  let opening : DeckSection :=
    { name := "Opening"
      slides := (List.range openingSlides).map fun i =>
        { title := if i = 0 then "**" ++ topic ++ "**: What You Need to Know"
                   else "Current State & Trends"
          layout := "title_bullets"
          sectionName := "Opening" } }
  let analysis : DeckSection :=
    { name := "Analysis"
      slides := (List.range analysisSlides).map fun i =>
        { title := if i = 0 then "Key Challenges & Opportunities"
                   else if i = 1 then "Data-Driven Insights"
                   else "Key Point " ++ toString (i + 1)
          layout := if i = 1 ∧ 1 < analysisSlides then "chart" else "title_bullets"
          sectionName := "Analysis" } }
  let conclusion : DeckSection :=
    { name := "Conclusion"
      slides := (List.range remaining2).map fun i =>
        { title := if i = 0 then "Impact & Results" else "Next Steps & Takeaways"
          layout := "title_bullets"
          sectionName := "Conclusion" } }
  { title := "**" ++ topic ++ "**: Key Insights & Analysis"
    sections := if 0 < remaining2 then [opening, analysis, conclusion]
                else [opening, analysis] }

/-- `generateOutline` (deck-generator.ts lines 58-237).  The LLM call,
response cleaning and `JSON.parse` are abstracted into the `llm` argument:
`none` means some step of the try-block threw before the adjustment, `some
parsed` is the parsed outline.  An exception inside the adjustment (empty
`sections`) also lands in the catch branch, which returns the fallback. -/
def generateOutline (slide_count : Nat) (topic : String) (llm : Option Outline) :
    Outline :=
  match llm with
  | none => fallbackOutline topic slide_count
  | some parsed =>
    match adjustSections slide_count parsed.sections with
    | none => fallbackOutline topic slide_count
    | some secs => { parsed with sections := secs }

/-! ## Slide generation results and the route slide loop -/

/-- Chart payload; its structure is irrelevant to the claims. -/
structure ChartSpec where
  ctype : String
deriving Repr, DecidableEq

/-- A slide image `{prompt, alt, source}`. -/
structure ImageSpec where
  prompt : String
  alt : String
  source : String
deriving Repr, DecidableEq

/-- A deck slide as pushed by the route handler. -/
structure Slide where
  layout : String
  title : String
  bullets : List String
  notes : String
  chart_spec : Option ChartSpec
  image : ImageSpec
  citations : List String
deriving Repr, DecidableEq

/-- The result of `generateSlide` after its image fix-up: the image is always
present (see `generateSlide` below). -/
structure Draft where
  title : String
  bullets : List String
  notes : String
  chart_spec : Option ChartSpec
  citations : List String
  image : ImageSpec
deriving Repr, DecidableEq

/-- The result of `generateVisual`. -/
structure Visual where
  prompt : String
  alt : String
deriving Repr, DecidableEq

/-- One iteration of the slide loop body (route.ts lines 177-233).
`some (draft, visual)` is the successful path; `none` is the catch branch
(a per-slide timeout or error), which pushes a placeholder built from the
outline slot so that the pipeline keeps going. -/
def buildSlide (slot : SlideSlot) (res : Option (Draft × Visual)) : Slide :=
  match res with
  | some (draft, visual) =>
    { layout := slot.layout
      title := draft.title
      bullets := draft.bullets
      notes := draft.notes
      chart_spec := draft.chart_spec
      image := { prompt := visual.prompt, alt := visual.alt, source := "generated" }
      citations := draft.citations }
  | none =>
    { layout := slot.layout
      title := slot.title
      bullets := ["Content generation in progress..."]
      notes := "This slide content is being generated."
      chart_spec := none
      image := { prompt := "Visual for " ++ slot.title, alt := slot.title
                 source := "generated" }
      citations := [] }

/-- The slide loop, indexed by the running slide counter. -/
def slideLoopAux (env : Nat → Option (Draft × Visual)) :
    Nat → List SlideSlot → List Slide
  | _, [] => []
  | i, slot :: rest => buildSlide slot (env i) :: slideLoopAux env (i + 1) rest

/-- The nested for-loops of the route handler, flattened over the outline
slots in order; `env i` is the outcome of the i-th slide generation. -/
def slideLoop (slots : List SlideSlot) (env : Nat → Option (Draft × Visual)) :
    List Slide :=
  slideLoopAux env 0 slots

/-! ## Request validation (route.ts, GenerateDeckRequestSchema) -/

/-- An incoming JSON request body; `none` is an absent field. -/
structure RequestBody where
  mode : Option String
  topic_or_prompt : Option String
  instructions : Option String
  tone : Option String
  audience : Option String
  slide_count : Option Int
  theme : Option String
  live_widgets : Option Bool
deriving Repr, DecidableEq

/-- The result of a successful zod parse, defaults applied. -/
structure ValidatedRequest where
  mode : String
  topic_or_prompt : Option String
  instructions : Option String
  tone : String
  audience : String
  slide_count : Int
  theme : String
  live_widgets : Bool
deriving Repr, DecidableEq

def modeValues : List String := ["quick_prompt", "doc_to_deck"]

def toneValues : List String := ["professional", "casual", "academic", "persuasive"]

def audienceValues : List String := ["general", "executives", "technical", "students"]

def themeValues : List String := ["deep_space", "ultra_violet", "minimal", "corporate"]

/-- The paths of the fields a zod parse of `GenerateDeckRequestSchema` would
report as invalid, in schema order. -/
def validationErrors (b : RequestBody) : List String :=
  (if b.mode.isNone ∨ b.mode.getD "" ∉ modeValues then ["mode"] else []) ++
  (if b.tone.getD "professional" ∉ toneValues then ["tone"] else []) ++
  (if b.audience.getD "general" ∉ audienceValues then ["audience"] else []) ++
  (if b.slide_count.getD 10 < 3 ∨ 50 < b.slide_count.getD 10 then ["slide_count"]
   else []) ++
  (if b.theme.getD "deep_space" ∉ themeValues then ["theme"] else [])

/-- `GenerateDeckRequestSchema.parse`: mode is required and enumerated, tone,
audience and theme are enumerated with defaults, slide_count must lie in
`[3, 50]` with default 10, live_widgets defaults to false. -/
def validateRequest (b : RequestBody) : Except (List String) ValidatedRequest :=
  if (validationErrors b).isEmpty then
    .ok { mode := b.mode.getD ""
          topic_or_prompt := b.topic_or_prompt
          instructions := b.instructions
          tone := b.tone.getD "professional"
          audience := b.audience.getD "general"
          slide_count := b.slide_count.getD 10
          theme := b.theme.getD "deep_space"
          live_widgets := b.live_widgets.getD false }
  else .error (validationErrors b)

/-- A deck `{title, theme, slides}`. -/
structure Deck where
  title : String
  theme : String
  slides : List Slide
deriving Repr, DecidableEq

/-- The observable HTTP outcomes of the POST handler. -/
inductive PostResponse where
  | ok (deck : Deck)
  | badRequest (error : String) (details : List String)
  | serverError (error : String)
deriving Repr, DecidableEq

/-- JavaScript `x || y` on optional strings: the empty string is falsy. -/
def jsOrString (x : Option String) (y : String) : String :=
  match x with
  | some s => if s = "" then y else s
  | none => y

/-- `validatedData.topic_or_prompt || validatedData.instructions || ''`. -/
def postTopic (v : ValidatedRequest) : String :=
  jsOrString v.topic_or_prompt (jsOrString v.instructions "")

/-- The generation phase of the POST handler after validation (route.ts lines
129-254): generate the outline, re-run the slide-count reconciliation on its
sections (an exception there escapes to the outer catch, yielding a 500
response), then run the slide loop over the slots in order. -/
def POSTgenerate (v : ValidatedRequest) (llm : Option Outline)
    (env : Nat → Option (Draft × Visual)) : PostResponse :=
  match adjustSections v.slide_count.toNat
      (generateOutline v.slide_count.toNat (postTopic v) llm).sections with
  | none => .serverError "Deck generation failed"
  | some secs =>
    .ok { title := (generateOutline v.slide_count.toNat (postTopic v) llm).title
          theme := v.theme
          slides := slideLoop (secs.flatMap fun s => s.slides) env }

/-- `POST /api/generate-deck` (route.ts lines 107-294).  A zod failure is
answered with HTTP 400 and body error `Invalid request data` plus the
offending field paths; otherwise the generation pipeline runs. -/
def POST (b : RequestBody) (llm : Option Outline)
    (env : Nat → Option (Draft × Visual)) : PostResponse :=
  match validateRequest b with
  | .error errs => .badRequest "Invalid request data" errs
  | .ok v => POSTgenerate v llm env

/-- The number of slides of a successful response, `none` for 400/500. -/
def postDeckSlideCount (r : PostResponse) : Option Nat :=
  match r with
  | .ok d => some d.slides.length
  | _ => none

/-- The slide_count a request validates to, `none` when validation fails. -/
def validatedSlideCount (b : RequestBody) : Option Int :=
  match validateRequest b with
  | .ok v => some v.slide_count
  | .error _ => none

/-! ## Rate limiting (llm.ts, `checkRateLimit`) -/

/-- A value of the module-level `rateLimitMap`. -/
structure RateEntry where
  count : Nat
  resetTime : Int
deriving Repr, DecidableEq

/-- `Map.set` on the association-list model of `rateLimitMap`. -/
def mapSet (m : List (String × RateEntry)) (k : String) (v : RateEntry) :
    List (String × RateEntry) :=
  match m with
  | [] => [(k, v)]
  | (k2, v2) :: rest => if k2 = k then (k, v) :: rest else (k2, v2) :: mapSet rest k v

/-- `checkRateLimit(ip, limit, windowMs)` (llm.ts lines 297-313).  The
module-level `rateLimitMap` is threaded explicitly as `m`; the returned pair
is (result, map after the call).  `now` is `Date.now()`. -/
def checkRateLimit (m : List (String × RateEntry)) (now : Int) (ip : String)
    (limit : Nat) (windowMs : Int) : Bool × List (String × RateEntry) :=
  match m.lookup ip with
  | none => (true, mapSet m ip { count := 1, resetTime := now + windowMs })
  | some current =>
    if current.resetTime < now then
      (true, mapSet m ip { count := 1, resetTime := now + windowMs })
    else if limit ≤ current.count then (false, m)
    else (true, mapSet m ip { count := current.count + 1, resetTime := current.resetTime })

/-! ## Document parsing stub (deck-generator.ts, `parseDocuments`) -/

/-- `url.split('/').pop() || 'document'`. -/
def basename (url : String) : String :=
  let name := (url.splitOn "/").getLastD ""
  if name = "" then "document" else name

/-- `name.replace(/\.[^.]+$/, '')`: remove the final extension when the last
dot is followed by at least one non-dot character. -/
def stripExt (name : String) : String :=
  match name.data.reverse.span (fun c => c ≠ '.') with
  | (_, []) => name
  | (ext, _dot :: restRev) => if ext.isEmpty then name else String.mk restRev.reverse

/-- The advisory summary template of `parseDocuments`. -/
def parseDocumentsSummary (fileNames : List String) : String :=
  "Documents uploaded: " ++ String.intercalate ", " fileNames ++ ". \n  \n" ++
  "Note: Document parsing is currently in development. For best results:\n" ++
  "- Provide a detailed prompt describing the document content\n" ++
  "- Include key topics, data, and insights you want in the presentation\n" ++
  "- Specify the document structure if relevant (e.g., \"The document contains market analysis, competitor data, and growth projections\")"

/-- `parseDocuments(docUrls)` (deck-generator.ts lines 435-455): returns the
empty string when the URL list is missing or empty, and otherwise a fixed
advisory summary built only from the basenames of the URLs with their file
extensions removed.  No document bytes are ever read. -/
def parseDocuments (docUrls : Option (List String)) : String :=
  match docUrls with
  | none => ""
  | some urls =>
    if urls.isEmpty then ""
    else parseDocumentsSummary (urls.map fun url => stripExt (basename url))

/-! ## Unsplash URL synthesis (deck-generator.ts, `generateUnsplashUrl`) -/

/-- Regex `\w` (no unicode flag): `[A-Za-z0-9_]`. -/
def isWordChar (c : Char) : Bool :=
  (decide (65 ≤ c.toNat) && decide (c.toNat ≤ 90)) ||
  (decide (97 ≤ c.toNat) && decide (c.toNat ≤ 122)) ||
  (decide (48 ≤ c.toNat) && decide (c.toNat ≤ 57)) ||
  c == '_'

/-- JavaScript whitespace: the character class of `\s` and the set removed by
`String.prototype.trim` (tab, line feed, vertical tab, form feed, carriage
return, space, NBSP, BOM, line and paragraph separators, Unicode Zs). -/
def isJsWsChar (c : Char) : Bool :=
  c == ' ' || c == '\t' || c == '\n' || c == '\r' ||
  c.toNat == 11 || c.toNat == 12 || c.toNat == 160 || c.toNat == 65279 ||
  c.toNat == 8232 || c.toNat == 8233 || c.toNat == 5760 ||
  (decide (8192 ≤ c.toNat) && decide (c.toNat ≤ 8202)) ||
  c.toNat == 8239 || c.toNat == 8287 || c.toNat == 12288

/-- `topic.replace(/[^\w\s]/g, '')`: keep only word and whitespace chars. -/
def stripNonWordChars (s : String) : String :=
  String.mk (s.data.filter fun c => isWordChar c || isJsWsChar c)

/-- The keyword extraction of `generateUnsplashUrl`: strip non-word
characters, split on single spaces, keep words longer than 3 characters,
take at most 3. -/
def unsplashKeywords (topic : String) : List String :=
  (((stripNonWordChars topic).splitOn " ").filter fun w => 3 < w.length).take 3

/-- `encodeURIComponent` unreserved characters. -/
def isUnreservedURI (c : Char) : Bool :=
  (decide (65 ≤ c.toNat) && decide (c.toNat ≤ 90)) ||
  (decide (97 ≤ c.toNat) && decide (c.toNat ≤ 122)) ||
  (decide (48 ≤ c.toNat) && decide (c.toNat ≤ 57)) ||
  c == '-' || c == '_' || c == '.' || c == '!' || c == '~' || c == '*' ||
  c == Char.ofNat 39 || c == '(' || c == ')'

/-- Uppercase hexadecimal digit for `n < 16`. -/
def hexDigit (n : Nat) : Char :=
  if n < 10 then Char.ofNat (48 + n) else Char.ofNat (55 + n)

/-- UTF-8 encoding of a code point. -/
def utf8Bytes (n : Nat) : List Nat :=
  if n < 128 then [n]
  else if n < 2048 then [192 + n / 64, 128 + n % 64]
  else if n < 65536 then [224 + n / 4096, 128 + (n / 64) % 64, 128 + n % 64]
  else [240 + n / 262144, 128 + (n / 4096) % 64, 128 + (n / 64) % 64, 128 + n % 64]

/-- `encodeURIComponent` for a single character. -/
def encChar (c : Char) : List Char :=
  if isUnreservedURI c then [c]
  else (utf8Bytes c.toNat).flatMap fun b => ['%', hexDigit (b / 16), hexDigit (b % 16)]

/-- `encodeURIComponent`. -/
def encodeURIComponent (s : String) : String :=
  String.mk (s.data.flatMap encChar)

/-- `generateUnsplashUrl(topic)` (deck-generator.ts lines 364-378). -/
def generateUnsplashUrl (topic : String) : String :=
  let keywords := String.intercalate "," (unsplashKeywords topic)
  let searchTerm := if keywords = "" then "business,presentation,professional"
                    else keywords
  "https://source.unsplash.com/800x600/?" ++ encodeURIComponent searchTerm

/-! ## Per-slide generation (deck-generator.ts, `generateSlide`) -/

/-- The image object of a parsed LLM slide response; `source = none` models
an absent or otherwise falsy source field. -/
structure ParsedImage where
  prompt : String
  alt : String
  source : Option String
deriving Repr, DecidableEq

/-- A parsed LLM slide response before the image fix-up. -/
structure ParsedSlide where
  title : String
  bullets : List String
  notes : String
  chart_spec : Option ChartSpec
  citations : List String
  image : Option ParsedImage
deriving Repr, DecidableEq

/-- `generateCitations(topic)`; `year` is `new Date().getFullYear()`. -/
def generateCitations (topic : String) (year : Int) : List String :=
  ["Industry research on " ++ topic ++ ", " ++ toString year,
   "Market analysis and trends, " ++ toString (year - 1) ++ "-" ++ toString year]

/-- `generateSlide` (deck-generator.ts lines 239-349).  `slotTitle` is
`params.slide_context.title`; `llm` abstracts the LLM call plus JSON
cleaning and parsing (`none` = any thrown error, handled by the catch
branch).  On success the image is forced to exist and a missing, empty or
`placeholder` source is replaced by an Unsplash URL. -/
def generateSlide (slotTitle : String) (year : Int) (llm : Option ParsedSlide) :
    Draft :=
  match llm with
  | some parsed =>
    match parsed.image with
    | none =>
      { title := parsed.title
        bullets := parsed.bullets
        notes := parsed.notes
        chart_spec := parsed.chart_spec
        citations := parsed.citations
        image :=
          { prompt := "Professional " ++ slotTitle ++ " diagram with modern, clean design"
            alt := "Visual representation of " ++ slotTitle
            source := generateUnsplashUrl slotTitle } }
    | some img =>
      let source :=
        match img.source with
        | none => generateUnsplashUrl slotTitle
        | some s => if s = "" ∨ s = "placeholder" then generateUnsplashUrl slotTitle
                    else s
      { title := parsed.title
        bullets := parsed.bullets
        notes := parsed.notes
        chart_spec := parsed.chart_spec
        citations := parsed.citations
        image := { prompt := img.prompt, alt := img.alt, source := source } }
  | none =>
    let topic := if slotTitle = "" then "Key Concepts" else slotTitle
    { title := "**" ++ topic ++ "**: Overview"
      bullets := ["**Core Concept**: " ++ topic ++ " fundamentals",
                  "**Key Metrics**: Measurable outcomes",
                  "**Innovation**: Latest developments"]
      notes := ""
      chart_spec := none
      citations := generateCitations topic year
      image :=
        { prompt := "Modern infographic showing " ++ topic ++ " with icons, arrows, and data visualizations in a clean, professional style"
          alt := topic ++ " concept diagram"
          source := generateUnsplashUrl topic } }

/-! ## JSON response cleaning (deck-generator.ts, `cleanJSONResponse`)

This helper inspects the string character by character, so it is embedded
over `List Char`. -/

/-- `response.trim()`: remove JavaScript whitespace from both ends. -/
def jsTrim (l : List Char) : List Char :=
  (l.rdropWhile isJsWsChar).dropWhile isJsWsChar

/-- JSON whitespace (space, tab, line feed, carriage return); a subset of
JavaScript whitespace. -/
def isJsonWsChar (c : Char) : Bool :=
  c == ' ' || c == '\t' || c == '\n' || c == '\r'

/-- Skip JSON whitespace. -/
def skipWs (l : List Char) : List Char :=
  l.dropWhile isJsonWsChar

/-- JSON digit. -/
def isDigitChar (c : Char) : Bool :=
  decide (48 ≤ c.toNat) && decide (c.toNat ≤ 57)

/-- JSON nonzero digit. -/
def isDigit19 (c : Char) : Bool :=
  decide (49 ≤ c.toNat) && decide (c.toNat ≤ 57)

/-- Hexadecimal digit, for `\uXXXX` escapes. -/
def isHexDigitChar (c : Char) : Bool :=
  isDigitChar c ||
  (decide (65 ≤ c.toNat) && decide (c.toNat ≤ 70)) ||
  (decide (97 ≤ c.toNat) && decide (c.toNat ≤ 102))

/-- Recognise the remainder of a JSON string after the opening quote;
returns the input following the closing quote. -/
def parseStr : List Char → Option (List Char)
  | [] => none
  | '"' :: t => some t
  | '\\' :: e :: t =>
    if e = '"' ∨ e = '\\' ∨ e = '/' ∨ e = 'b' ∨ e = 'f' ∨ e = 'n' ∨ e = 'r' ∨ e = 't'
    then parseStr t
    else if e = 'u' then
      match t with
      | a :: b :: c :: d :: t2 =>
        if isHexDigitChar a && isHexDigitChar b && isHexDigitChar c && isHexDigitChar d
        then parseStr t2 else none
      | _ => none
    else none
  | c :: t => if c.toNat < 32 then none else parseStr t

/-- The fraction part of a JSON number (optional). -/
def parseFracPart (l : List Char) : Option (List Char) :=
  match l with
  | '.' :: t =>
    if (t.takeWhile isDigitChar).isEmpty then none
    else some (t.dropWhile isDigitChar)
  | _ => some l

/-- The exponent part of a JSON number (optional). -/
def parseExpPart (l : List Char) : Option (List Char) :=
  match l with
  | [] => some []
  | c :: t =>
    if c = 'e' ∨ c = 'E' then
      let t2 := match t with
                | s :: r => if s = '+' ∨ s = '-' then r else t
                | [] => t
      if (t2.takeWhile isDigitChar).isEmpty then none
      else some (t2.dropWhile isDigitChar)
    else some (c :: t)

/-- A JSON number: optional minus, integer part with no leading zero,
optional fraction and exponent. -/
def parseNum (l : List Char) : Option (List Char) :=
  let l1 := match l with
            | '-' :: t => t
            | _ => l
  match l1 with
  | [] => none
  | '0' :: t => (parseFracPart t).bind parseExpPart
  | c :: t =>
    if isDigit19 c then (parseFracPart (t.dropWhile isDigitChar)).bind parseExpPart
    else none

mutual

/-- Recursive-descent recogniser for a JSON value; `fuel` bounds the nesting
depth (it is instantiated generously in `jsonValid`).  Returns the remaining
input after the value. -/
def parseVal : Nat → List Char → Option (List Char)
  | 0, _ => none
  | fuel + 1, l =>
    match l with
    | [] => none
    | c :: t =>
      if c = '{' then
        match skipWs t with
        | '}' :: r => some r
        | r => parseMems fuel r
      else if c = '[' then
        match skipWs t with
        | ']' :: r => some r
        | r => parseElems fuel r
      else if c = '"' then parseStr t
      else if c = 't' then
        if "rue".data.isPrefixOf t then some (t.drop 3) else none
      else if c = 'f' then
        if "alse".data.isPrefixOf t then some (t.drop 4) else none
      else if c = 'n' then
        if "ull".data.isPrefixOf t then some (t.drop 3) else none
      else if c = '-' ∨ isDigitChar c then parseNum (c :: t)
      else none

/-- Members of a JSON object after `{` and leading whitespace, knowing the
object is not empty; consumes up to and including the closing `}`. -/
def parseMems : Nat → List Char → Option (List Char)
  | 0, _ => none
  | fuel + 1, l =>
    match l with
    | '"' :: t =>
      match parseStr t with
      | none => none
      | some r =>
        match skipWs r with
        | ':' :: r2 =>
          match parseVal fuel (skipWs r2) with
          | none => none
          | some r3 =>
            match skipWs r3 with
            | ',' :: r4 => parseMems fuel (skipWs r4)
            | '}' :: r4 => some r4
            | _ => none
        | _ => none
    | _ => none

/-- Elements of a JSON array after `[` and leading whitespace, knowing the
array is not empty; consumes up to and including the closing `]`. -/
def parseElems : Nat → List Char → Option (List Char)
  | 0, _ => none
  | fuel + 1, l =>
    match parseVal fuel l with
    | none => none
    | some r =>
      match skipWs r with
      | ',' :: r2 => parseElems fuel (skipWs r2)
      | ']' :: r2 => some r2
      | _ => none

end

/-- The characters a JSON value can start with: an opening brace or bracket,
a quote, the first letter of true, false or null, a minus or a digit. -/
def starterChar (c : Char) : Bool :=
  decide (c = '{') || decide (c = '[') || decide (c = '"') || decide (c = 't') ||
  decide (c = 'f') || decide (c = 'n') || decide (c = '-') || isDigitChar c

/-- `JSON.parse(s)` succeeds: one JSON value surrounded by whitespace. -/
def jsonValid (l : List Char) : Bool :=
  match parseVal (4 * l.length + 16) (skipWs l) with
  | some r => (skipWs r).isEmpty
  | none => false

/-- Remove a trailing occurrence of `pat`, as `replace(/pat$/, '')`. -/
def dropSuffix (pat l : List Char) : List Char :=
  if pat.isSuffixOf l then l.take (l.length - pat.length) else l

/-- `cleaned.replace(/^```json\n/, '').replace(/\n```$/, '')`. -/
def stripFenceJson (l : List Char) : List Char :=
  dropSuffix "\n```".data (if "```json\n".data.isPrefixOf l then l.drop 8 else l)

/-- `cleaned.replace(/^```\n/, '').replace(/\n```$/, '')`. -/
def stripFenceBare (l : List Char) : List Char :=
  dropSuffix "\n```".data (if "```\n".data.isPrefixOf l then l.drop 4 else l)

/-- ASCII lower-casing on character codes, modelling the case-insensitive
regex match. -/
def lowerNat (n : Nat) : Nat :=
  if 65 ≤ n ∧ n ≤ 90 then n + 32 else n

/-- A character's code point, lower-cased. -/
def charLowerNat (c : Char) : Nat :=
  lowerNat c.toNat

/-- The effective alternatives of the conversational-prefix regex
`/^(Okay|Sure|Here|Certainly|Here's|Here is)[,:]?\s*/i` as lower-cased
character codes (the two longer alternatives are shadowed by the earlier
alternative for the word here and can never match first): okay, sure, here,
certainly. -/
def convWords : List (List Nat) :=
  [[111, 107, 97, 121],
   [115, 117, 114, 101],
   [104, 101, 114, 101],
   [99, 101, 114, 116, 97, 105, 110, 108, 121]]

/-- `cleaned.replace(/^(Okay|Sure|Here|Certainly|Here's|Here is)[,:]?\s*/i, '')`:
when a conversational word starts the string (case-insensitively), drop it,
one optional comma or colon, and following whitespace. -/
def stripConvPrefix (l : List Char) : List Char :=
  match convWords.find? (fun w => w.isPrefixOf (l.map charLowerNat)) with
  | none => l
  | some w =>
    let rest := l.drop w.length
    let rest2 := match rest with
                 | c :: t2 => if c = ',' ∨ c = ':' then t2 else c :: t2
                 | [] => []
    rest2.dropWhile isJsWsChar

/-- Global replacement of a fixed pattern, as `replace(/pat/g, rep)`:
left-to-right, non-overlapping. -/
def replaceAll (pat rep : List Char) : List Char → List Char
  | [] => []
  | c :: t =>
    if h : pat ≠ [] ∧ pat.isPrefixOf (c :: t) then
      rep ++ replaceAll pat rep ((c :: t).drop pat.length)
    else
      c :: replaceAll pat rep t
termination_by l => l.length
decreasing_by
  · have hp : 0 < pat.length := List.length_pos.mpr h.1
    simp only [List.length_drop, List.length_cons]
    omega
  · simp

/-- The escape fixes applied when the first parse fails: literal `\n` to
space, `\\` to `\`, `\"` to `"`, `\'` to the apostrophe. -/
def fixEscapes (l : List Char) : List Char :=
  replaceAll ['\\', Char.ofNat 39] [Char.ofNat 39]
    (replaceAll ['\\', '"'] ['"']
      (replaceAll ['\\', '\\'] ['\\']
        (replaceAll ['\\', 'n'] [' '] l)))

/-- `cleanJSONResponse` (deck-generator.ts lines 21-56): trim, strip a
markdown code fence, strip a conversational prefix, then return as-is when
the result parses as JSON and otherwise apply the escape fixes and trim. -/
def cleanJSONResponse (response : List Char) : List Char :=
  let cleaned := jsTrim response
  let cleaned2 :=
    if "```json".data.isPrefixOf cleaned then stripFenceJson cleaned
    else if "```".data.isPrefixOf cleaned then stripFenceBare cleaned
    else cleaned
  let cleaned3 := stripConvPrefix cleaned2
  if jsonValid cleaned3 then cleaned3
  else jsTrim (fixEscapes cleaned3)

/-! ## Concrete instances used by witnesses and counterexamples -/

/-- The slide count of the last section, 0 for an empty outline. -/
def lastSecLen (sections : List DeckSection) : Nat :=
  match sections.getLast? with
  | none => 0
  | some s => s.slides.length

/-- A one-section outline used to witness C4. -/
def c4Section : DeckSection :=
  { name := "A"
    slides := [{ title := "t", layout := "title_bullets", sectionName := "A" }] }

/-- A well-formed request asking for exactly 3 slides. -/
def c1Body : RequestBody :=
  { mode := some "quick_prompt"
    topic_or_prompt := some "T"
    instructions := none
    tone := none
    audience := none
    slide_count := some 3
    theme := none
    live_widgets := none }

/-- The validated form of `c1Body`. -/
def c1Validated : ValidatedRequest :=
  { mode := "quick_prompt"
    topic_or_prompt := some "T"
    instructions := none
    tone := "professional"
    audience := "general"
    slide_count := 3
    theme := "deep_space"
    live_widgets := false }

/-- A filler slot for the C1 counterexample outline. -/
def c1Slot : SlideSlot :=
  { title := "x", layout := "title_bullets", sectionName := "A" }

/-- An LLM outline whose excess over the requested 3 slides (5 in total)
exceeds its last section's slide count (1). -/
def c1LLM : Outline :=
  { title := "T0"
    sections := [{ name := "A", slides := [c1Slot, c1Slot, c1Slot, c1Slot] },
                 { name := "B", slides := [c1Slot] }] }

/-- A request whose slide_count 99 exceeds the schema maximum of 50. -/
def c9Body : RequestBody :=
  { mode := some "quick_prompt"
    topic_or_prompt := none
    instructions := none
    tone := none
    audience := none
    slide_count := some 99
    theme := none
    live_widgets := none }

/-! ## General lemmas about the embedding -/

theorem totalSlides_append (a b : List DeckSection) :
    totalSlides (a ++ b) = totalSlides a + totalSlides b := by
  simp [totalSlides]

theorem padSlides_length (name : String) (needed : Nat) :
    (padSlides name needed).length = needed := by
  simp [padSlides]

theorem totalSlides_singleton (s : DeckSection) :
    totalSlides [s] = s.slides.length := by
  simp [totalSlides]

theorem jsSliceTo_prefix {α : Type} (l : List α) (e : Int) : jsSliceTo l e <+: l :=
  List.take_prefix _ l

theorem jsSliceTo_length_of_le (l : List SlideSlot) (e : Int) (h0 : 0 ≤ e)
    (h1 : e ≤ (l.length : Int)) : ((jsSliceTo l e).length : Int) = e := by
  simp only [jsSliceTo]
  rw [if_neg (by omega)]
  simp only [List.length_take]
  omega

theorem fallbackOutline_totalSlides (topic : String) (n : Nat) (h : 3 ≤ n) :
    totalSlides (fallbackOutline topic n).sections = n := by
  simp only [fallbackOutline, totalSlides]
  split_ifs <;>
    simp only [List.map_cons, List.map_nil, List.sum_cons, List.sum_nil,
      List.length_map, List.length_range] <;>
    omega

theorem fallbackOutline_sectionNames (topic : String) (n : Nat) (h : 3 ≤ n) :
    (fallbackOutline topic n).sections.map (fun s => s.name) =
      (if n = 3 then ["Opening", "Analysis"]
       else ["Opening", "Analysis", "Conclusion"]) := by
  simp only [fallbackOutline]
  split_ifs with h1 h2 h2 <;> simp_all <;> omega

theorem adjustSections_total_eq (target : Nat) (sections : List DeckSection)
    (h : totalSlides sections = target) :
    adjustSections target sections = some sections := by
  simp [adjustSections, h]

theorem adjustSections_exact (target : Nat) (sections : List DeckSection)
    (last : DeckSection) (hlast : sections.getLast? = some last)
    (hle : totalSlides sections ≤ target + last.slides.length) :
    ∃ out, adjustSections target sections = some out ∧ totalSlides out = target := by
  have hne : sections ≠ [] := by
    intro h
    rw [h] at hlast
    exact Option.noConfusion hlast
  have hgl : sections.getLast hne = last := by
    have := List.getLast?_eq_getLast_of_ne_nil hne
    rw [this] at hlast
    exact Option.some.inj hlast
  have hdec : sections.dropLast ++ [last] = sections := by
    rw [← hgl]
    exact List.dropLast_append_getLast hne
  have htot : totalSlides sections = totalSlides sections.dropLast + last.slides.length := by
    conv_lhs => rw [← hdec]
    simp [totalSlides_append, totalSlides]
  by_cases h0 : totalSlides sections = target
  · exact ⟨sections, adjustSections_total_eq _ _ h0, h0⟩
  · simp only [adjustSections, if_neg h0, hlast]
    by_cases h2 : totalSlides sections < target
    · rw [if_pos h2]
      refine ⟨_, rfl, ?_⟩
      rw [totalSlides_append, totalSlides_singleton]
      simp only [List.length_append, padSlides_length]
      omega
    · rw [if_neg h2]
      refine ⟨_, rfl, ?_⟩
      have hlen := jsSliceTo_length_of_le last.slides
        ((last.slides.length : Int) - ((totalSlides sections : Int) - (target : Int)))
        (by omega) (by omega)
      rw [totalSlides_append, totalSlides_singleton]
      dsimp only
      omega

theorem generateOutline_total (n : Nat) (topic : String) (llm : Option Outline)
    (hn : 3 ≤ n)
    (hex : ∀ p, llm = some p → totalSlides p.sections ≤ n + lastSecLen p.sections) :
    totalSlides (generateOutline n topic llm).sections = n := by
  cases llm with
  | none =>
    simp only [generateOutline]
    exact fallbackOutline_totalSlides topic n hn
  | some p =>
    cases hl : p.sections.getLast? with
    | none =>
      have hemp : p.sections = [] := by simpa using hl
      have hadj : adjustSections n p.sections = none := by
        simp [adjustSections, hemp, totalSlides]
        omega
      simp only [generateOutline, hadj]
      exact fallbackOutline_totalSlides topic n hn
    | some last =>
      have hle := hex p rfl
      rw [lastSecLen, hl] at hle
      obtain ⟨out, hadj, htot⟩ := adjustSections_exact n p.sections last hl hle
      simp [generateOutline, hadj, htot]

theorem slideLoopAux_length (env : Nat → Option (Draft × Visual))
    (slots : List SlideSlot) : ∀ i, (slideLoopAux env i slots).length = slots.length := by
  induction slots with
  | nil => intro i; rfl
  | cons s rest ih => intro i; simp [slideLoopAux, ih (i + 1)]

theorem slideLoop_length (slots : List SlideSlot) (env : Nat → Option (Draft × Visual)) :
    (slideLoop slots env).length = slots.length :=
  slideLoopAux_length env slots 0

theorem slideLoopAux_getElem? (env : Nat → Option (Draft × Visual))
    (slots : List SlideSlot) :
    ∀ i j (h : j < slots.length),
      (slideLoopAux env i slots)[j]? = some (buildSlide (slots.get ⟨j, h⟩) (env (i + j))) := by
  induction slots with
  | nil => intro i j h; simp at h
  | cons s rest ih =>
    intro i j h
    cases j with
    | zero => simp [slideLoopAux]
    | succ j2 =>
      have h2 : j2 < rest.length := by simpa using h
      have := ih (i + 1) j2 h2
      simp only [slideLoopAux, List.getElem?_cons_succ, this, List.get_cons_succ]
      have harith : i + 1 + j2 = i + (j2 + 1) := by omega
      rw [harith]

theorem length_flatMap_slides (sections : List DeckSection) :
    (sections.flatMap fun s => s.slides).length = totalSlides sections := by
  simp [List.length_flatMap, totalSlides, Function.comp_def]

/-! ## Claim theorems -/

/-- C2: `generateOutline` never rejects: every error while calling the LLM,
cleaning, parsing, or adjusting its response lands in the catch branch, which
returns the fallback outline, and for every requested slide count of at least
3 the fallback outline (sections Opening, Analysis and, exactly when the
count exceeds 3, Conclusion) contains exactly that many slides in total. -/
theorem generateOutline_fallback_exact (topic : String) (n : Nat) (llm : Option Outline)
    (hn : 3 ≤ n)
    (herr : llm = none ∨ ∃ p, llm = some p ∧ adjustSections n p.sections = none) :
    generateOutline n topic llm = fallbackOutline topic n ∧
    totalSlides (fallbackOutline topic n).sections = n ∧
    (fallbackOutline topic n).sections.map (fun s => s.name) =
      (if n = 3 then ["Opening", "Analysis"]
       else ["Opening", "Analysis", "Conclusion"]) := by
  refine ⟨?_, fallbackOutline_totalSlides topic n hn, fallbackOutline_sectionNames topic n hn⟩
  rcases herr with h | ⟨p, hp, hadj⟩
  · simp [generateOutline, h]
  · simp [generateOutline, hp, hadj]

/-- Witness for C2 at slide count 5 with a failed LLM call. -/
theorem generateOutline_fallback_exact_witness :
    generateOutline 5 "Topic" none = fallbackOutline "Topic" 5 ∧
    totalSlides (fallbackOutline "Topic" 5).sections = 5 ∧
    (fallbackOutline "Topic" 5).sections.map (fun s => s.name) =
      (if 5 = 3 then ["Opening", "Analysis"]
       else ["Opening", "Analysis", "Conclusion"]) :=
  generateOutline_fallback_exact "Topic" 5 none (by omega) (Or.inl rfl)

/-- C3: the route slide loop yields exactly one output slide per outline slot,
in slot order, each with its slot's layout; a failed or timed-out slide
(`env j = none`) contributes the placeholder slide built from the slot's
title and layout instead of failing the request. -/
theorem slideLoop_one_slide_per_slot (slots : List SlideSlot)
    (env : Nat → Option (Draft × Visual)) :
    (slideLoop slots env).length = slots.length ∧
    ∀ j (h : j < slots.length),
      (slideLoop slots env)[j]? = some (buildSlide (slots.get ⟨j, h⟩) (env j)) ∧
      (buildSlide (slots.get ⟨j, h⟩) (env j)).layout = (slots.get ⟨j, h⟩).layout ∧
      (env j = none →
        buildSlide (slots.get ⟨j, h⟩) (env j) =
          { layout := (slots.get ⟨j, h⟩).layout
            title := (slots.get ⟨j, h⟩).title
            bullets := ["Content generation in progress..."]
            notes := "This slide content is being generated."
            chart_spec := none
            image := { prompt := "Visual for " ++ (slots.get ⟨j, h⟩).title
                       alt := (slots.get ⟨j, h⟩).title
                       source := "generated" }
            citations := [] }) := by
  refine ⟨slideLoop_length slots env, fun j h => ⟨?_, ?_, ?_⟩⟩
  · have := slideLoopAux_getElem? env slots 0 j h
    simpa [slideLoop] using this
  · cases henv : env j with
    | none => rfl
    | some dv => cases dv; rfl
  · intro henv
    rw [henv]
    rfl

/-- Witness for C3 on a single-slot outline whose slide generation fails. -/
theorem slideLoop_one_slide_per_slot_witness :
    (slideLoop [{ title := "T", layout := "quote", sectionName := "S" }]
        (fun _ => none))[0]? =
      some (buildSlide { title := "T", layout := "quote", sectionName := "S" } none) :=
  ((slideLoop_one_slide_per_slot
      [{ title := "T", layout := "quote", sectionName := "S" }] (fun _ => none)).2
    0 (by decide)).1

/-- C4: the slide-count reconciliation only edits the last section: when the
total differs from the target, the adjusted list keeps every earlier section
unchanged (`sections.dropLast` is preserved verbatim) and the last section
keeps its name; padding appends the Additional Key Point filler slides to its
original slides, truncation keeps a prefix of its original slides. -/
theorem adjustSections_only_last (target : Nat) (sections : List DeckSection)
    (last : DeckSection) (hlast : sections.getLast? = some last)
    (hdiff : totalSlides sections ≠ target) :
    ∃ newLast,
      adjustSections target sections = some (sections.dropLast ++ [newLast]) ∧
      newLast.name = last.name ∧
      (totalSlides sections < target →
        newLast.slides =
          last.slides ++ padSlides last.name (target - totalSlides sections)) ∧
      (target < totalSlides sections → newLast.slides <+: last.slides) := by
  simp only [adjustSections, if_neg hdiff, hlast]
  by_cases h2 : totalSlides sections < target
  · rw [if_pos h2]
    exact ⟨_, rfl, rfl, fun _ => rfl, fun h3 => absurd h3 (by omega)⟩
  · rw [if_neg h2]
    exact ⟨_, rfl, rfl, fun h3 => absurd h3 h2, fun _ => jsSliceTo_prefix _ _⟩

theorem validateRequest_ok_bounds (b : RequestBody) (v : ValidatedRequest)
    (h : validateRequest b = .ok v) : 3 ≤ v.slide_count ∧ v.slide_count ≤ 50 := by
  unfold validateRequest at h
  by_cases he : (validationErrors b).isEmpty
  · rw [if_pos he] at h
    have hnil : validationErrors b = [] := by simpa using he
    have h4 : ¬(b.slide_count.getD 10 < 3 ∨ 50 < b.slide_count.getD 10) := by
      intro hbad
      have hmem : "slide_count" ∈ validationErrors b := by
        unfold validationErrors
        rw [if_pos hbad]
        simp
      rw [hnil] at hmem
      cases hmem
    have hv : v.slide_count = b.slide_count.getD 10 := by
      cases h
      rfl
    omega
  · rw [if_neg he] at h
    exact Except.noConfusion h

/-- Witness for C4: a single short section gets padded in place. -/
theorem adjustSections_only_last_witness :
    ∃ newLast,
      adjustSections 2 [c4Section] = some (([c4Section] : List DeckSection).dropLast ++ [newLast]) ∧
      newLast.name = c4Section.name ∧
      (totalSlides [c4Section] < 2 →
        newLast.slides = c4Section.slides ++ padSlides c4Section.name (2 - totalSlides [c4Section])) ∧
      (2 < totalSlides [c4Section] → newLast.slides <+: c4Section.slides) :=
  adjustSections_only_last 2 [c4Section] c4Section rfl (by decide)

/-- C1 is false as stated: for the validated request `c1Body` (slide_count 3)
and the LLM outline `c1LLM` (sections of 4 and 1 slides, so the excess of 2
exceeds the last section's single slide), both reconciliation passes slice
with a negative end, JavaScript clamps the slice to empty, and the request
nevertheless succeeds with a deck of 4 slides instead of 3. -/
theorem generateDeck_exact_count_counterexample :
    validatedSlideCount c1Body = some 3 ∧
    postDeckSlideCount (POST c1Body (some c1LLM) fun _ => none) = some 4 := by
  constructor <;> rfl

/-- C1 (amended): for every successful POST request the deck has exactly the
validated slide_count many slides, provided every outline the LLM returns has
an excess over the requested count of at most the last section's slide count
(in particular whenever the LLM result fails, parses to a short outline, or
parses to an overlong outline whose last section absorbs the whole excess);
without that proviso the count is only best-effort, as the counterexample
shows. -/
theorem generateDeck_exact_count_amended (b : RequestBody) (v : ValidatedRequest)
    (llm : Option Outline) (env : Nat → Option (Draft × Visual))
    (hv : validateRequest b = .ok v)
    (hex : ∀ p, llm = some p →
      totalSlides p.sections ≤ v.slide_count.toNat + lastSecLen p.sections) :
    postDeckSlideCount (POST b llm env) = some v.slide_count.toNat := by
  have hb := validateRequest_ok_bounds b v hv
  have hn : 3 ≤ v.slide_count.toNat := by omega
  have htot := generateOutline_total v.slide_count.toNat (postTopic v) llm hn hex
  have hadj := adjustSections_total_eq _ _ htot
  simp only [POST, hv, POSTgenerate, hadj, postDeckSlideCount]
  rw [slideLoop_length, length_flatMap_slides, htot]

/-- Witness for the amended C1: a request for 3 slides with a failed LLM call
produces a 3-slide deck from the fallback outline. -/
theorem generateDeck_exact_count_amended_witness :
    postDeckSlideCount (POST c1Body none fun _ => none) = some 3 :=
  generateDeck_exact_count_amended c1Body c1Validated none (fun _ => none)
    (by rfl) (fun p hp => nomatch hp)

/-- C7 is false as stated: `checkRateLimit` reads and writes the module-level
`rateLimitMap`, so two invocations with identical arguments (same ip, time,
limit and window) return different results depending on the preceding call:
on a fresh map the call returns true, and repeating it on the map the first
call left behind returns false. -/
theorem checkRateLimit_state_counterexample :
    (checkRateLimit [] 0 "1.2.3.4" 1 3600000).1 = true ∧
    (checkRateLimit (checkRateLimit [] 0 "1.2.3.4" 1 3600000).2 0 "1.2.3.4" 1 3600000).1 =
      false := by
  constructor <;> rfl

/-- C7 (amended): the deck-generation operations are pure functions of their
inputs, but the exported `checkRateLimit` keeps per-IP state in the in-memory
`rateLimitMap`: for every ip, time and non-negative window, a call with limit
1 on the empty map returns true while the identical call replayed on the
resulting map returns false. -/
theorem checkRateLimit_stateful_amended (ip : String) (now windowMs : Int)
    (hw : 0 ≤ windowMs) :
    (checkRateLimit [] now ip 1 windowMs).1 = true ∧
    (checkRateLimit (checkRateLimit [] now ip 1 windowMs).2 now ip 1 windowMs).1 =
      false := by
  constructor
  · rfl
  · show (checkRateLimit [(ip, { count := 1, resetTime := now + windowMs })]
      now ip 1 windowMs).1 = false
    unfold checkRateLimit
    simp only [List.lookup, beq_self_eq_true, if_true]
    rw [if_neg (by omega)]
    rfl

/-- Witness for the amended C7. -/
theorem checkRateLimit_stateful_amended_witness :
    (checkRateLimit [] 7 "10.0.0.1" 1 100).1 = true ∧
    (checkRateLimit (checkRateLimit [] 7 "10.0.0.1" 1 100).2 7 "10.0.0.1" 1 100).1 =
      false :=
  checkRateLimit_stateful_amended "10.0.0.1" 7 100 (by omega)

theorem parseDocumentsSummary_ne_empty (fileNames : List String) :
    parseDocumentsSummary fileNames ≠ "" := by
  intro h
  have hlen := congrArg String.length h
  rw [parseDocumentsSummary] at hlen
  simp only [String.length_append] at hlen
  have h1 : "Documents uploaded: ".length = 20 := rfl
  have h2 : "".length = 0 := rfl
  rw [h1, h2] at hlen
  omega

/-- C8: document parsing is a stub that never reads document contents:
`parseDocuments` returns the empty string exactly when the URL list is
missing or empty, and otherwise returns the fixed advisory summary built
only from the URLs' basenames with their extensions removed (the function
receives nothing but the URLs, so no document bytes are involved). -/
theorem parseDocuments_stub_spec (docUrls : Option (List String)) :
    (parseDocuments docUrls = "" ↔ docUrls = none ∨ docUrls = some []) ∧
    ∀ urls, docUrls = some urls → urls ≠ [] →
      parseDocuments docUrls =
        parseDocumentsSummary (urls.map fun url => stripExt (basename url)) := by
  constructor
  · constructor
    · intro h
      cases docUrls with
      | none => exact Or.inl rfl
      | some urls =>
        cases urls with
        | nil => exact Or.inr rfl
        | cons u t =>
          exfalso
          rw [parseDocuments] at h
          simp only [List.isEmpty_cons, if_false, Bool.false_eq_true] at h
          exact parseDocumentsSummary_ne_empty _ h
    · intro h
      rcases h with h | h <;> rw [h] <;> rfl
  · intro urls hu hne
    rw [hu, parseDocuments]
    rw [if_neg (by simpa using hne)]

/-- Witness for C8 on a single uploaded document URL. -/
theorem parseDocuments_stub_spec_witness :
    parseDocuments (some ["docs/report.pdf"]) =
      parseDocumentsSummary (["docs/report.pdf"].map fun url => stripExt (basename url)) :=
  (parseDocuments_stub_spec (some ["docs/report.pdf"])).2 ["docs/report.pdf"] rfl
    (by simp)

theorem post_badRequest_of_mem (b : RequestBody) (llm : Option Outline)
    (env : Nat → Option (Draft × Visual)) (x : String)
    (hx : x ∈ validationErrors b) :
    POST b llm env = .badRequest "Invalid request data" (validationErrors b) := by
  have hne : (validationErrors b).isEmpty = false := by
    cases hh : validationErrors b with
    | nil => rw [hh] at hx; cases hx
    | cons y t => rfl
  simp [POST, validateRequest, hne]

/-- C9: invalid requests are rejected with HTTP 400 and an Invalid request
data body naming the offending field, without running any generation: a
slide_count below 3 or above 50, or a mode, tone, audience or theme outside
its enumeration, each yields the 400 response with its field listed in the
details; a request omitting the optional fields validates with the declared
defaults (slide_count 10, tone professional, audience general, theme
deep_space, live_widgets false). -/
theorem post_invalid_request_400 (b : RequestBody) (llm : Option Outline)
    (env : Nat → Option (Draft × Visual)) :
    (∀ k : Int, b.slide_count = some k → (k < 3 ∨ 50 < k) →
      POST b llm env = .badRequest "Invalid request data" (validationErrors b) ∧
      "slide_count" ∈ validationErrors b) ∧
    (∀ m, b.mode = some m → m ∉ modeValues →
      POST b llm env = .badRequest "Invalid request data" (validationErrors b) ∧
      "mode" ∈ validationErrors b) ∧
    (∀ t, b.tone = some t → t ∉ toneValues →
      POST b llm env = .badRequest "Invalid request data" (validationErrors b) ∧
      "tone" ∈ validationErrors b) ∧
    (∀ a, b.audience = some a → a ∉ audienceValues →
      POST b llm env = .badRequest "Invalid request data" (validationErrors b) ∧
      "audience" ∈ validationErrors b) ∧
    (∀ th, b.theme = some th → th ∉ themeValues →
      POST b llm env = .badRequest "Invalid request data" (validationErrors b) ∧
      "theme" ∈ validationErrors b) ∧
    (b.tone = none ∧ b.audience = none ∧ b.slide_count = none ∧ b.theme = none ∧
        b.live_widgets = none →
      ∀ v, validateRequest b = .ok v →
        v.tone = "professional" ∧ v.audience = "general" ∧ v.slide_count = 10 ∧
        v.theme = "deep_space" ∧ v.live_widgets = false) := by
  refine ⟨?_, ?_, ?_, ?_, ?_, ?_⟩
  · intro k hk hbad
    have hmem : "slide_count" ∈ validationErrors b := by
      unfold validationErrors
      rw [hk]
      simp only [Option.getD_some]
      rw [if_pos hbad]
      simp
    exact ⟨post_badRequest_of_mem b llm env _ hmem, hmem⟩
  · intro m hm hbad
    have hmem : "mode" ∈ validationErrors b := by
      unfold validationErrors
      rw [hm]
      simp only [Option.getD_some]
      rw [if_pos (Or.inr hbad)]
      simp
    exact ⟨post_badRequest_of_mem b llm env _ hmem, hmem⟩
  · intro t ht hbad
    have hmem : "tone" ∈ validationErrors b := by
      unfold validationErrors
      rw [ht]
      simp only [Option.getD_some]
      rw [if_pos hbad]
      simp
    exact ⟨post_badRequest_of_mem b llm env _ hmem, hmem⟩
  · intro a ha hbad
    have hmem : "audience" ∈ validationErrors b := by
      unfold validationErrors
      rw [ha]
      simp only [Option.getD_some]
      rw [if_pos hbad]
      simp
    exact ⟨post_badRequest_of_mem b llm env _ hmem, hmem⟩
  · intro th hth hbad
    have hmem : "theme" ∈ validationErrors b := by
      unfold validationErrors
      rw [hth]
      simp only [Option.getD_some]
      rw [if_pos hbad]
      simp
    exact ⟨post_badRequest_of_mem b llm env _ hmem, hmem⟩
  · rintro ⟨h1, h2, h3, h4, h5⟩ v hv
    unfold validateRequest at hv
    by_cases he : (validationErrors b).isEmpty
    · rw [if_pos he] at hv
      cases hv
      simp [h1, h2, h3, h4, h5]
    · rw [if_neg he] at hv
      exact Except.noConfusion hv

/-- Witness for C9: slide_count 99 is rejected with a 400 naming the field. -/
theorem post_invalid_request_400_witness :
    POST c9Body none (fun _ => none) =
      .badRequest "Invalid request data" (validationErrors c9Body) ∧
    "slide_count" ∈ validationErrors c9Body :=
  (post_invalid_request_400 c9Body none (fun _ => none)).1 99 rfl (Or.inr (by omega))

theorem utf8Bytes_ne_nil (n : Nat) : utf8Bytes n ≠ [] := by
  unfold utf8Bytes
  split_ifs <;> simp

theorem encChar_ne_nil (c : Char) : encChar c ≠ [] := by
  unfold encChar
  split_ifs with h
  · simp
  · cases hb : utf8Bytes c.toNat with
    | nil => exact absurd hb (utf8Bytes_ne_nil _)
    | cons b rest => simp [hb]

theorem encodeURIComponent_ne_empty (s : String) (h : s ≠ "") :
    encodeURIComponent s ≠ "" := by
  intro he
  have hdata : s.data.flatMap encChar = [] := by
    have := congrArg String.data he
    simpa [encodeURIComponent] using this
  cases hs : s.data with
  | nil =>
    apply h
    cases s with
    | mk data =>
      have hd : data = [] := hs
      subst hd
      rfl
  | cons c t =>
    rw [hs, List.flatMap_cons] at hdata
    exact encChar_ne_nil c (List.append_eq_nil.mp hdata).1

theorem generateUnsplashUrl_spec (topic : String) :
    ∃ kw, generateUnsplashUrl topic =
        "https://source.unsplash.com/800x600/?" ++ encodeURIComponent kw ∧
      encodeURIComponent kw ≠ "" ∧
      (kw = "business,presentation,professional" ∨
        (kw = String.intercalate "," (unsplashKeywords topic) ∧
         (unsplashKeywords topic).length ≤ 3 ∧
         ∀ w ∈ unsplashKeywords topic, 3 < w.length)) := by
  by_cases h : String.intercalate "," (unsplashKeywords topic) = ""
  · refine ⟨"business,presentation,professional", ?_, by decide, Or.inl rfl⟩
    simp [generateUnsplashUrl, h]
  · refine ⟨String.intercalate "," (unsplashKeywords topic), ?_,
      encodeURIComponent_ne_empty _ h, Or.inr ⟨rfl, ?_, ?_⟩⟩
    · simp [generateUnsplashUrl, h]
    · have := List.length_take 3 (((stripNonWordChars topic).splitOn " ").filter
        fun w => 3 < w.length)
      simp only [unsplashKeywords]
      omega
    · intro w hw
      have hmem := List.mem_of_mem_take hw
      have := (List.mem_filter.mp hmem).2
      simpa using this

theorem generateUnsplashUrl_ne_placeholder (topic : String) :
    generateUnsplashUrl topic ≠ "placeholder" := by
  obtain ⟨kw, heq, henc, _⟩ := generateUnsplashUrl_spec topic
  rw [heq]
  intro hcontr
  have hlen := congrArg String.length hcontr
  rw [String.length_append] at hlen
  have h1 : "https://source.unsplash.com/800x600/?".length = 37 := rfl
  have h2 : "placeholder".length = 11 := rfl
  rw [h1, h2] at hlen
  omega

/-- C10: every `generateSlide` result carries an image whose source is never
the literal placeholder; whenever the parsed LLM response omits the image or
gives it a missing, empty or placeholder source (and in the catch-branch
fallback) the source is an Unsplash URL with the fixed prefix and a non-empty
query built from at most three keywords longer than 3 characters drawn from
the slide title (or Key Concepts when the title is empty), or the fixed
fallback keywords. -/
theorem generateSlide_image_source_spec (slotTitle : String) (year : Int)
    (llm : Option ParsedSlide) :
    (generateSlide slotTitle year llm).image.source ≠ "placeholder" ∧
    ((llm = none ∨
        ∃ p, llm = some p ∧
          (p.image = none ∨
            ∃ img, p.image = some img ∧
              (img.source = none ∨ img.source = some "" ∨
                img.source = some "placeholder"))) →
      ∃ kw, (generateSlide slotTitle year llm).image.source =
          "https://source.unsplash.com/800x600/?" ++ encodeURIComponent kw ∧
        encodeURIComponent kw ≠ "" ∧
        (kw = "business,presentation,professional" ∨
          ∃ t, (t = slotTitle ∨ t = "Key Concepts") ∧
            kw = String.intercalate "," (unsplashKeywords t) ∧
            (unsplashKeywords t).length ≤ 3 ∧
            ∀ w ∈ unsplashKeywords t, 3 < w.length)) := by
  have hmain : ∀ t : String, (t = slotTitle ∨ t = "Key Concepts") →
      ∃ kw, generateUnsplashUrl t =
          "https://source.unsplash.com/800x600/?" ++ encodeURIComponent kw ∧
        encodeURIComponent kw ≠ "" ∧
        (kw = "business,presentation,professional" ∨
          ∃ t2, (t2 = slotTitle ∨ t2 = "Key Concepts") ∧
            kw = String.intercalate "," (unsplashKeywords t2) ∧
            (unsplashKeywords t2).length ≤ 3 ∧
            ∀ w ∈ unsplashKeywords t2, 3 < w.length) := by
    intro t ht
    obtain ⟨kw, heq, henc, hd⟩ := generateUnsplashUrl_spec t
    refine ⟨kw, heq, henc, ?_⟩
    rcases hd with hd | hd
    · exact Or.inl hd
    · exact Or.inr ⟨t, ht, hd.1, hd.2.1, hd.2.2⟩
  constructor
  · cases llm with
    | none =>
      simp only [generateSlide]
      exact generateUnsplashUrl_ne_placeholder _
    | some parsed =>
      cases hpi : parsed.image with
      | none =>
        simp only [generateSlide, hpi]
        exact generateUnsplashUrl_ne_placeholder _
      | some img =>
        cases hsrc : img.source with
        | none =>
          simp only [generateSlide, hpi, hsrc]
          exact generateUnsplashUrl_ne_placeholder _
        | some s =>
          by_cases hrep : s = "" ∨ s = "placeholder"
          · simp only [generateSlide, hpi, hsrc, if_pos hrep]
            exact generateUnsplashUrl_ne_placeholder _
          · simp only [generateSlide, hpi, hsrc, if_neg hrep]
            intro hcontr
            exact hrep (Or.inr hcontr)
  · intro hcase
    rcases hcase with hnone | ⟨p, hp, hrest⟩
    · rw [hnone]
      simp only [generateSlide]
      by_cases hempty : slotTitle = ""
      · rw [if_pos hempty]
        exact hmain "Key Concepts" (Or.inr rfl)
      · rw [if_neg hempty]
        exact hmain slotTitle (Or.inl rfl)
    · rw [hp]
      rcases hrest with hpi | ⟨img, hpi, hsrc⟩
      · simp only [generateSlide, hpi]
        exact hmain slotTitle (Or.inl rfl)
      · rcases hsrc with hsrc | hsrc | hsrc <;>
          simp only [generateSlide, hpi, hsrc] <;>
          first
            | exact hmain slotTitle (Or.inl rfl)
            | (rw [if_pos (by simp)]; exact hmain slotTitle (Or.inl rfl))

theorem jsonWs_subset (c : Char) (h : isJsonWsChar c = true) : isJsWsChar c = true := by
  simp only [isJsonWsChar, Bool.or_eq_true, beq_iff_eq] at h
  rcases h with ((h | h) | h) | h <;>
    · subst h
      decide

theorem dropWhile_cons_head_false {p : Char → Bool} :
    ∀ (l : List Char) (c : Char) (t : List Char), l.dropWhile p = c :: t → p c = false := by
  intro l
  induction l with
  | nil => intro c t h; cases h
  | cons a rest ih =>
    intro c t h
    rw [List.dropWhile_cons] at h
    by_cases hp : p a = true
    · rw [if_pos hp] at h
      exact ih c t h
    · rw [if_neg hp] at h
      cases h
      simpa using hp

theorem jsTrim_head_false (s : List Char) (c : Char) (u : List Char)
    (h : jsTrim s = c :: u) : isJsWsChar c = false := by
  rw [jsTrim] at h
  exact dropWhile_cons_head_false _ c u h

theorem jsTrim_idem (l : List Char) : jsTrim (jsTrim l) = jsTrim l := by
  have hm : jsTrim l = (l.rdropWhile isJsWsChar).dropWhile isJsWsChar := rfl
  have h1 : List.rdropWhile isJsWsChar (jsTrim l) = jsTrim l := by
    rw [List.rdropWhile_eq_self_iff]
    intro hl
    have hsuf : jsTrim l <:+ l.rdropWhile isJsWsChar := by
      rw [hm]
      exact List.dropWhile_suffix _
    obtain ⟨pre, hpre⟩ := hsuf
    have hne2 : l.rdropWhile isJsWsChar ≠ [] := by
      intro h0
      rw [h0] at hpre
      rcases List.append_eq_nil.mp hpre with ⟨-, h2⟩
      exact hl h2
    have e1 := List.getLast?_eq_getLast_of_ne_nil hl
    have e2 := List.getLast?_eq_getLast_of_ne_nil hne2
    have e3 : (l.rdropWhile isJsWsChar).getLast? = (jsTrim l).getLast? := by
      rw [← hpre, List.getLast?_append, e1]
      rfl
    have e4 : (jsTrim l).getLast hl = (l.rdropWhile isJsWsChar).getLast hne2 := by
      have h5 := e3.symm.trans e2
      rw [e1] at h5
      exact Option.some.inj h5
    rw [e4]
    exact List.rdropWhile_last_not isJsWsChar l hne2
  calc jsTrim (jsTrim l)
      = (List.rdropWhile isJsWsChar (jsTrim l)).dropWhile isJsWsChar := rfl
    _ = (jsTrim l).dropWhile isJsWsChar := by rw [h1]
    _ = jsTrim l := by rw [hm]; exact List.dropWhile_idempotent _ _

theorem parseVal_starter (f : Nat) (l r : List Char) (h : parseVal f l = some r) :
    ∃ c t, l = c :: t ∧ starterChar c = true := by
  cases f with
  | zero => exact absurd h (by simp [parseVal])
  | succ f2 =>
    cases l with
    | nil => exact absurd h (by simp [parseVal])
    | cons c t =>
      refine ⟨c, t, rfl, ?_⟩
      simp only [parseVal] at h
      split_ifs at h with h1 h2 h3 h4 h4b h5 h5b h6 h6b h7
      · subst h1; decide
      · subst h2; decide
      · subst h3; decide
      · subst h4; decide
      · subst h5; decide
      · subst h6; decide
      · rcases h7 with h7 | h7
        · subst h7; decide
        · simp [starterChar, h7]

theorem starter_lowerNat (c : Char) (h : starterChar c = true) :
    charLowerNat c ≠ 111 ∧ charLowerNat c ≠ 115 ∧
    charLowerNat c ≠ 104 ∧ charLowerNat c ≠ 99 := by
  have hv : c.toNat = 123 ∨ c.toNat = 91 ∨ c.toNat = 34 ∨ c.toNat = 116 ∨
      c.toNat = 102 ∨ c.toNat = 110 ∨ c.toNat = 45 ∨
      (48 ≤ c.toNat ∧ c.toNat ≤ 57) := by
    simp only [starterChar, Bool.or_eq_true, decide_eq_true_eq, isDigitChar,
      Bool.and_eq_true] at h
    rcases h with ((((((h | h) | h) | h) | h) | h) | h) | h
    · subst h; decide
    · subst h; decide
    · subst h; decide
    · subst h; decide
    · subst h; decide
    · subst h; decide
    · subst h; decide
    · omega
  unfold charLowerNat lowerNat
  split_ifs with hle
  · omega
  · omega

theorem stripConvPrefix_eq_self (c : Char) (t : List Char)
    (h : starterChar c = true) : stripConvPrefix (c :: t) = c :: t := by
  obtain ⟨h1, h2, h3, h4⟩ := starter_lowerNat c h
  have e1 : (([111, 107, 97, 121] : List Nat)).isPrefixOf ((c :: t).map charLowerNat) =
      false := by
    simp only [List.map_cons, List.isPrefixOf, Bool.and_eq_false_iff]
    left
    rw [beq_eq_false_iff_ne]
    exact fun hc => h1 hc.symm
  have e2 : (([115, 117, 114, 101] : List Nat)).isPrefixOf ((c :: t).map charLowerNat) =
      false := by
    simp only [List.map_cons, List.isPrefixOf, Bool.and_eq_false_iff]
    left
    rw [beq_eq_false_iff_ne]
    exact fun hc => h2 hc.symm
  have e3 : (([104, 101, 114, 101] : List Nat)).isPrefixOf ((c :: t).map charLowerNat) =
      false := by
    simp only [List.map_cons, List.isPrefixOf, Bool.and_eq_false_iff]
    left
    rw [beq_eq_false_iff_ne]
    exact fun hc => h3 hc.symm
  have e4 : (([99, 101, 114, 116, 97, 105, 110, 108, 121] : List Nat)).isPrefixOf
      ((c :: t).map charLowerNat) = false := by
    simp only [List.map_cons, List.isPrefixOf, Bool.and_eq_false_iff]
    left
    rw [beq_eq_false_iff_ne]
    exact fun hc => h4 hc.symm
  have hfind : convWords.find? (fun w => w.isPrefixOf ((c :: t).map charLowerNat)) =
      none := by
    simp only [convWords, List.find?, e1, e2, e3, e4]
  simp only [stripConvPrefix, hfind]

theorem isPrefixOf_fence (l : List Char)
    (h : ("```".data.isPrefixOf l) = false) :
    ("```json".data.isPrefixOf l) = false := by
  by_contra hcontr
  rw [Bool.not_eq_false] at hcontr
  have hp1 : "```json".data <+: l := by
    rw [← List.isPrefixOf_iff_prefix]
    exact hcontr
  have hp2 : "```".data <+: "```json".data := by decide
  have hp3 : "```".data <+: l := hp2.trans hp1
  rw [← List.isPrefixOf_iff_prefix] at hp3
  rw [hp3] at h
  cases h

theorem cleanJSON_valid_core (s : List Char)
    (hvalid : jsonValid (jsTrim s) = true)
    (hfence : ("```".data.isPrefixOf (jsTrim s)) = false) :
    cleanJSONResponse s = jsTrim s := by
  cases ht : jsTrim s with
  | nil =>
    rw [ht] at hvalid
    exact absurd hvalid (by decide)
  | cons c u =>
    have hws : isJsWsChar c = false := jsTrim_head_false s c u ht
    have hjws : isJsonWsChar c = false := by
      by_contra hcon
      rw [Bool.not_eq_false] at hcon
      have hup := jsonWs_subset c hcon
      rw [hup] at hws
      cases hws
    have hskip : skipWs (c :: u) = c :: u := by
      simp [skipWs, List.dropWhile_cons, hjws]
    have hstart : starterChar c = true := by
      have hv2 := hvalid
      rw [ht] at hv2
      unfold jsonValid at hv2
      rw [hskip] at hv2
      cases hp : parseVal (4 * (c :: u).length + 16) (c :: u) with
      | none => rw [hp] at hv2; exact absurd hv2 (by simp)
      | some r =>
        obtain ⟨c2, t2, hct, hstar⟩ := parseVal_starter _ _ _ hp
        cases hct
        exact hstar
    have hf1 : ("```json".data.isPrefixOf (jsTrim s)) = false := isPrefixOf_fence _ hfence
    have hstep : cleanJSONResponse s =
        (if jsonValid (stripConvPrefix (jsTrim s)) then stripConvPrefix (jsTrim s)
         else jsTrim (fixEscapes (stripConvPrefix (jsTrim s)))) := by
      simp only [cleanJSONResponse, hf1, hfence, Bool.false_eq_true, if_false]
    rw [hstep, ht, stripConvPrefix_eq_self c u hstart, ← ht, if_pos hvalid]

/-- C5: `cleanJSONResponse` validates before repairing: for every input whose
trimmed form is valid JSON and does not start with a markdown code fence, it
returns exactly the trimmed input (the fence stripping, conversational-prefix
stripping and escape rewriting all leave it untouched, valid JSON never
beginning with a conversational word), and it is therefore idempotent on such
inputs. -/
theorem cleanJSONResponse_valid_identity (s : List Char)
    (hvalid : jsonValid (jsTrim s) = true)
    (hfence : ("```".data.isPrefixOf (jsTrim s)) = false) :
    cleanJSONResponse s = jsTrim s ∧
    cleanJSONResponse (cleanJSONResponse s) = cleanJSONResponse s := by
  have h1 := cleanJSON_valid_core s hvalid hfence
  refine ⟨h1, ?_⟩
  rw [h1]
  have hidem := jsTrim_idem s
  have h2 := cleanJSON_valid_core (jsTrim s) (by rw [hidem]; exact hvalid)
    (by rw [hidem]; exact hfence)
  rw [h2, hidem, ← h1]

/-- Witness for C5 on a valid JSON object with surrounding whitespace. -/
theorem cleanJSONResponse_valid_identity_witness :
    cleanJSONResponse (" \x7b\"ok\": 1\x7d ".data) = jsTrim (" \x7b\"ok\": 1\x7d ".data) ∧
    cleanJSONResponse (cleanJSONResponse (" \x7b\"ok\": 1\x7d ".data)) =
      cleanJSONResponse (" \x7b\"ok\": 1\x7d ".data) :=
  cleanJSONResponse_valid_identity (" \x7b\"ok\": 1\x7d ".data) (by decide) (by decide)

/-- Witness for C10: a failed slide generation falls back to an Unsplash
image URL with a non-empty query. -/
theorem generateSlide_image_source_spec_witness :
    ∃ kw, (generateSlide "AI" 2024 none).image.source =
        "https://source.unsplash.com/800x600/?" ++ encodeURIComponent kw ∧
      encodeURIComponent kw ≠ "" ∧
      (kw = "business,presentation,professional" ∨
        ∃ t, (t = "AI" ∨ t = "Key Concepts") ∧
          kw = String.intercalate "," (unsplashKeywords t) ∧
          (unsplashKeywords t).length ≤ 3 ∧
          ∀ w ∈ unsplashKeywords t, 3 < w.length) :=
  (generateSlide_image_source_spec "AI" 2024 none).2 (Or.inl rfl)

end SlideSmith
